import Mathlib

/-!
Shallow embedding of the pearls service's authorization and OAuth core
(`src/services/thread-service.ts`, `src/services/pearl-service.ts`,
`src/services/workos.ts`, `src/middleware/auth.ts`, `src/routes/oauth.ts`,
`src/mcp/tools/pearl-create.ts`), together with theorems settling the
frozen claims about it.

Database tables are modelled as lists of rows; SQL queries become list
operations; `Date.now()` becomes an explicit `now : Nat` parameter
(milliseconds); random value generation becomes an explicit `fresh` input.
JavaScript truthiness of optional strings is modelled by `jsTruthy`.
-/

namespace Pearls

/-- JS truthiness of an optional string field: present and non-empty. -/
def jsTruthy : Option String → Bool
  | some s => s != ""
  | none => false

/-- Evaluation of `x || d` on an optional JS number where `0` is falsy
(`input.limit || 10` in `pearl-service.ts`). -/
def jsOrNat (x : Option Nat) (d : Nat) : Nat :=
  match x with
  | some n => if n = 0 then d else n
  | none => d

/-! ## Data model (`src/db/schema`) -/

/-- Type `Permission` from `thread-service.ts`: `'read' | 'write' | 'admin'`. -/
inductive Permission where
  | read
  | write
  | admin
deriving DecidableEq, Repr

/-- A row of the `threads` table (`db/schema/threads.ts`). -/
structure Thread where
  id : String
  slug : String
  name : String
  description : Option String := none
  isPublic : Bool
  createdAt : Nat := 0
  createdBy : Option String := none
  updatedAt : Nat := 0
deriving DecidableEq, Repr

/-- A row of the `thread_access` table (`db/schema/thread-access.ts`).
Rows are only ever written through `grantThreadAccess`, whose `permission`
argument has type `Permission`, so the `permission` column is modelled with
that type. -/
structure ThreadAccess where
  threadId : String
  role : String
  permission : Permission
deriving DecidableEq, Repr

/-- A row of the `pearls` table (`db/schema/pearls.ts`); the jsonb
`metadata` column and the vector column are opaque to the claims and
omitted from the row model. -/
structure Pearl where
  id : String
  threadId : String
  title : Option String := none
  content : String
  createdAt : Nat
  createdBy : Option String := none
  instanceId : Option String := none
  inReplyTo : Option String := none
  pearlType : Option String := none
  authorshipType : Option String := none
  status : String := "active"
  parentPearl : Option String := none
deriving DecidableEq, Repr

/-- The relational store the services query. -/
structure DBState where
  threads : List Thread
  threadAccess : List ThreadAccess
  pearls : List Pearl
deriving Repr

/-- Interface `AuthContext` from `middleware/auth.ts`. -/
structure AuthContext where
  userId : Option String
  email : Option String
  roles : List String
  isAnonymous : Bool
deriving DecidableEq, Repr

/-! ## Access Control Evaluator (`src/services/thread-service.ts`) -/

/-- Query `SELECT * FROM threads WHERE slug = $1 LIMIT 1` with the `|| null`
fallback (`getThreadBySlug`). -/
def getThreadBySlug (db : DBState) (slug : String) : Option Thread :=
  db.threads.find? (fun t => t.slug == slug)

/-- Reading `thread[0]?.isPublic` after `SELECT * FROM threads WHERE id = $1 LIMIT 1`
in `checkThreadAccess`'s public-read branch; a missing row reads as `false`. -/
def threadIsPublic (db : DBState) (threadId : String) : Bool :=
  match db.threads.find? (fun t => t.id == threadId) with
  | some t => t.isPublic
  | none => false

/-- The `permissionHierarchy` record from `checkThreadAccess`. -/
def permissionHierarchy : Permission → List Permission
  | .read => [.read, .write, .admin]
  | .write => [.write, .admin]
  | .admin => [.admin]

/-- Numeric height of a permission in the hierarchy `admin > write > read`,
used to characterise `permissionHierarchy` in the theorems. -/
def permRank : Permission → Nat
  | .read => 0
  | .write => 1
  | .admin => 2

/-- Function `checkThreadAccess` from `thread-service.ts`: admin bypass, public-read
check, then an existence query against `thread_access` filtered by the
role set and by the hierarchy closure of the required permission. -/
def checkThreadAccess (db : DBState) (threadId : String) (auth : AuthContext)
    (requiredPermission : Permission) : Bool :=
  if auth.roles.contains "admin" then
    true
  else if requiredPermission == .read && threadIsPublic db threadId then
    true
  else
    db.threadAccess.any fun a =>
      a.threadId == threadId
        && auth.roles.contains a.role
        && (permissionHierarchy requiredPermission).contains a.permission

/-- Ordering `ORDER BY name` on a thread query, as in `listAccessibleThreads`. -/
def sortByName (l : List Thread) : List Thread :=
  l.mergeSort (fun a b => decide (a.name ≤ b.name))

/-- Function `listAccessibleThreads` from `thread-service.ts`: admins get every
thread; otherwise the grant rows matching the identity's roles are
collected and threads are filtered to public-or-granted (with the
degenerate all-public query when no grant matches). -/
def listAccessibleThreads (db : DBState) (auth : AuthContext) : List Thread :=
  if auth.roles.contains "admin" then
    sortByName db.threads
  else
    let threadIds :=
      (db.threadAccess.filter (fun a => auth.roles.contains a.role)).map (·.threadId)
    if threadIds.isEmpty then
      sortByName (db.threads.filter (·.isPublic))
    else
      sortByName (db.threads.filter (fun t => t.isPublic || threadIds.contains t.id))

/-! ## Lemmas about the evaluator -/

theorem mem_sortByName (t : Thread) (l : List Thread) :
    t ∈ sortByName l ↔ t ∈ l := by
  simp [sortByName, List.mem_mergeSort]

theorem mem_permissionHierarchy (q p : Permission) :
    p ∈ permissionHierarchy q ↔ permRank q ≤ permRank p := by
  cases q <;> cases p <;> simp [permissionHierarchy, permRank]

theorem checkThreadAccess_iff (db : DBState) (threadId : String) (auth : AuthContext)
    (q : Permission) :
    checkThreadAccess db threadId auth q = true ↔
      ("admin" ∈ auth.roles
        ∨ (q = .read ∧ threadIsPublic db threadId = true)
        ∨ ∃ a ∈ db.threadAccess, a.threadId = threadId ∧ a.role ∈ auth.roles
            ∧ permRank q ≤ permRank a.permission) := by
  unfold checkThreadAccess
  by_cases hadmin : "admin" ∈ auth.roles
  · simp [hadmin, List.elem_iff]
  · have hc : auth.roles.contains "admin" = false := by
      rw [Bool.eq_false_iff]
      intro h
      exact hadmin (List.elem_iff.1 h)
    rw [hc]
    simp only [Bool.false_eq_true, if_false]
    have hany :
        (db.threadAccess.any fun a =>
          a.threadId == threadId && auth.roles.contains a.role
            && (permissionHierarchy q).contains a.permission) = true ↔
        (∃ a ∈ db.threadAccess, a.threadId = threadId ∧ a.role ∈ auth.roles
            ∧ permRank q ≤ permRank a.permission) := by
      rw [List.any_eq_true]
      constructor
      · rintro ⟨a, ha, hcond⟩
        simp only [Bool.and_eq_true, beq_iff_eq, List.elem_iff] at hcond
        exact ⟨a, ha, hcond.1.1, hcond.1.2,
          (mem_permissionHierarchy q a.permission).1 hcond.2⟩
      · rintro ⟨a, ha, h1, h2, h3⟩
        refine ⟨a, ha, ?_⟩
        simp only [Bool.and_eq_true, beq_iff_eq, List.elem_iff]
        exact ⟨⟨h1, h2⟩, (mem_permissionHierarchy q a.permission).2 h3⟩
    by_cases hpub : q = Permission.read ∧ threadIsPublic db threadId = true
    · have : (q == Permission.read && threadIsPublic db threadId) = true := by
        simp [hpub.1, hpub.2]
      rw [this]
      simp [hadmin, hpub]
    · have : (q == Permission.read && threadIsPublic db threadId) = false := by
        rw [Bool.eq_false_iff]
        intro h
        rw [Bool.and_eq_true, beq_iff_eq] at h
        exact hpub h
      rw [this]
      simp only [Bool.false_eq_true, if_false]
      rw [hany]
      tauto

/-! ## Example fixtures used by witnesses -/

/-- A private thread used by concrete witnesses. -/
def exThread : Thread :=
  { id := "t1", slug := "alpha", name := "Alpha", isPublic := false }

/-- Store with a single `write` grant for role `member` on the private thread. -/
def exDbWrite : DBState :=
  { threads := [exThread]
    threadAccess := [{ threadId := "t1", role := "member", permission := .write }]
    pearls := [] }

/-- Store with a single `read` grant for role `member` on the private thread. -/
def exDbRead : DBState :=
  { threads := [exThread]
    threadAccess := [{ threadId := "t1", role := "member", permission := .read }]
    pearls := [] }

/-- A non-admin identity holding role `member`. -/
def exMember : AuthContext :=
  { userId := some "u1", email := none, roles := ["member"], isAnonymous := false }

/-! ## Claim C1 -/

/-- C1: `checkThreadAccess(t, i, q)` returns true iff `i`'s roles contain
`admin`, or `q` is `read` and the thread's `isPublic` flag is true, or some
access grant `(t, r, p)` has `r` in `i`'s roles and `p` at or above `q` in
the hierarchy `admin > write > read`; in particular, on a non-public thread
for a non-admin identity whose matching grants are all `write`, the `read`
and `write` checks pass and the `admin` check fails, and when the matching
grants are all `read`, the `write` check fails. -/
theorem C1_checkThreadAccess_spec :
    (∀ (db : DBState) (threadId : String) (auth : AuthContext) (q : Permission),
      checkThreadAccess db threadId auth q = true ↔
        ("admin" ∈ auth.roles
          ∨ (q = .read ∧ threadIsPublic db threadId = true)
          ∨ ∃ a ∈ db.threadAccess, a.threadId = threadId ∧ a.role ∈ auth.roles
              ∧ permRank q ≤ permRank a.permission))
    ∧ (∀ (db : DBState) (threadId : String) (auth : AuthContext),
        "admin" ∉ auth.roles →
        threadIsPublic db threadId = false →
        (∃ a ∈ db.threadAccess, a.threadId = threadId ∧ a.role ∈ auth.roles) →
        (∀ a ∈ db.threadAccess, a.threadId = threadId → a.role ∈ auth.roles →
          a.permission = .write) →
        (checkThreadAccess db threadId auth .read = true
          ∧ checkThreadAccess db threadId auth .write = true
          ∧ checkThreadAccess db threadId auth .admin = false))
    ∧ (∀ (db : DBState) (threadId : String) (auth : AuthContext),
        "admin" ∉ auth.roles →
        (∀ a ∈ db.threadAccess, a.threadId = threadId → a.role ∈ auth.roles →
          a.permission = .read) →
        checkThreadAccess db threadId auth .write = false) := by
  refine ⟨checkThreadAccess_iff, ?_, ?_⟩
  · intro db threadId auth hadmin hpub ⟨a, ha, hat, har⟩ hall
    have hw : a.permission = .write := hall a ha hat har
    refine ⟨?_, ?_, ?_⟩
    · exact (checkThreadAccess_iff db threadId auth .read).2
        (Or.inr (Or.inr ⟨a, ha, hat, har, by rw [hw]; decide⟩))
    · exact (checkThreadAccess_iff db threadId auth .write).2
        (Or.inr (Or.inr ⟨a, ha, hat, har, by rw [hw]⟩))
    · rw [Bool.eq_false_iff]
      intro h
      rcases (checkThreadAccess_iff db threadId auth .admin).1 h with
        h' | ⟨h', _⟩ | ⟨b, hb, hbt, hbr, hbp⟩
      · exact hadmin h'
      · cases h'
      · have := hall b hb hbt hbr
        rw [this] at hbp
        exact absurd hbp (by decide)
  · intro db threadId auth hadmin hall
    rw [Bool.eq_false_iff]
    intro h
    rcases (checkThreadAccess_iff db threadId auth .write).1 h with
      h' | ⟨h', _⟩ | ⟨b, hb, hbt, hbr, hbp⟩
    · exact hadmin h'
    · cases h'
    · have := hall b hb hbt hbr
      rw [this] at hbp
      exact absurd hbp (by decide)

/-- Witness for C1: a concrete `write` grant passes `read` and `write`
checks and fails `admin`, and a concrete `read` grant fails a `write` check. -/
theorem C1_checkThreadAccess_spec_witness :
    (checkThreadAccess exDbWrite "t1" exMember .read = true
      ∧ checkThreadAccess exDbWrite "t1" exMember .write = true
      ∧ checkThreadAccess exDbWrite "t1" exMember .admin = false)
    ∧ checkThreadAccess exDbRead "t1" exMember .write = false := by
  constructor
  · exact C1_checkThreadAccess_spec.2.1 exDbWrite "t1" exMember (by decide) (by decide)
      ⟨{ threadId := "t1", role := "member", permission := .write }, by decide, by decide,
        by decide⟩ (by decide)
  · exact C1_checkThreadAccess_spec.2.2 exDbRead "t1" exMember (by decide) (by decide)

/-! ## Claim C7 -/

/-- C7: for an admin identity `listAccessibleThreads` returns every thread;
for a non-admin identity a thread is in the result exactly when it is public
or some access grant on it matches one of the identity's roles — so every
public thread is included and no thread that is neither public nor covered
by a matching grant ever is. -/
theorem C7_listAccessibleThreads_spec :
    (∀ (db : DBState) (auth : AuthContext), "admin" ∈ auth.roles →
      ∀ t : Thread, t ∈ listAccessibleThreads db auth ↔ t ∈ db.threads)
    ∧ (∀ (db : DBState) (auth : AuthContext), "admin" ∉ auth.roles →
      ∀ t : Thread, t ∈ listAccessibleThreads db auth ↔
        (t ∈ db.threads ∧ (t.isPublic = true
          ∨ ∃ a ∈ db.threadAccess, a.role ∈ auth.roles ∧ a.threadId = t.id))) := by
  constructor
  · intro db auth hadmin t
    simp [listAccessibleThreads, hadmin, mem_sortByName]
  · intro db auth hadmin t
    have hc : auth.roles.contains "admin" = false := by
      rw [Bool.eq_false_iff]
      intro h
      exact hadmin (List.elem_iff.1 h)
    unfold listAccessibleThreads
    rw [hc]
    simp only [Bool.false_eq_true, if_false]
    set matching := db.threadAccess.filter (fun a => auth.roles.contains a.role) with hm
    have hmatch : ∀ a : ThreadAccess, a ∈ matching ↔ a ∈ db.threadAccess ∧ a.role ∈ auth.roles := by
      intro a
      rw [hm, List.mem_filter, List.elem_iff]
    by_cases hemp : (matching.map (·.threadId)).isEmpty
    · rw [if_pos hemp]
      rw [mem_sortByName, List.mem_filter]
      have hnone : ∀ a ∈ db.threadAccess, a.role ∉ auth.roles := by
        intro a ha har
        have : a ∈ matching := (hmatch a).2 ⟨ha, har⟩
        have : a.threadId ∈ matching.map (·.threadId) := List.mem_map_of_mem _ this
        rw [List.isEmpty_iff] at hemp
        rw [hemp] at this
        cases this
      constructor
      · rintro ⟨ht, hp⟩
        exact ⟨ht, Or.inl hp⟩
      · rintro ⟨ht, hp | ⟨a, ha, har, _⟩⟩
        · exact ⟨ht, hp⟩
        · exact absurd har (hnone a ha)
    · rw [if_neg hemp]
      rw [mem_sortByName, List.mem_filter]
      have hid : (matching.map (·.threadId)).contains t.id = true ↔
          ∃ a ∈ db.threadAccess, a.role ∈ auth.roles ∧ a.threadId = t.id := by
        rw [List.elem_iff, List.mem_map]
        constructor
        · rintro ⟨a, ha, hat⟩
          have := (hmatch a).1 ha
          exact ⟨a, this.1, this.2, hat⟩
        · rintro ⟨a, ha, har, hat⟩
          exact ⟨a, (hmatch a).2 ⟨ha, har⟩, hat⟩
      constructor
      · rintro ⟨ht, hcond⟩
        rw [Bool.or_eq_true] at hcond
        rcases hcond with hp | hin
        · exact ⟨ht, Or.inl hp⟩
        · exact ⟨ht, Or.inr (hid.1 hin)⟩
      · rintro ⟨ht, hp | hex⟩
        · exact ⟨ht, by rw [Bool.or_eq_true]; exact Or.inl hp⟩
        · exact ⟨ht, by rw [Bool.or_eq_true]; exact Or.inr (hid.2 hex)⟩

/-- Witness for C7: with the concrete single-grant store, the admin identity
sees the private thread, the `member` identity sees it through its grant. -/
theorem C7_listAccessibleThreads_spec_witness :
    (exThread ∈ listAccessibleThreads exDbWrite
      { userId := some "a", email := none, roles := ["admin"], isAnonymous := false }
      ↔ exThread ∈ exDbWrite.threads)
    ∧ (exThread ∈ listAccessibleThreads exDbWrite exMember ↔
        (exThread ∈ exDbWrite.threads ∧ (exThread.isPublic = true
          ∨ ∃ a ∈ exDbWrite.threadAccess, a.role ∈ exMember.roles ∧ a.threadId = exThread.id))) := by
  constructor
  · exact C7_listAccessibleThreads_spec.1 exDbWrite _ (by decide) exThread
  · exact C7_listAccessibleThreads_spec.2 exDbWrite exMember (by decide) exThread

/-! ## Content service (`src/services/pearl-service.ts`, `src/mcp/tools/pearl-create.ts`) -/

/-- Interface `CreatePearlInput` from `pearl-service.ts` (the opaque `metadata` map is
not read by any claim and is omitted). -/
structure CreatePearlInput where
  thread : String
  content : String
  title : Option String := none
  inReplyTo : Option String := none
  instanceId : Option String := none
  pearlType : Option String := none
  authorshipType : Option String := none

/-- Function `createPearl`: slug lookup, write-access check, then insert with a
store-assigned id and creation timestamp, modelled as state passing with the
failure branches leaving the store unchanged. The fire-and-forget embedding
enrichment only touches the vector column, which is outside the row model. -/
def createPearl (db : DBState) (now : Nat) (freshId : String)
    (input : CreatePearlInput) (auth : AuthContext) : DBState × Except String Pearl :=
  match getThreadBySlug db input.thread with
  | none => (db, .error ("Thread \"" ++ input.thread ++ "\" not found"))
  | some thread =>
    if checkThreadAccess db thread.id auth .write then
      let pearl : Pearl :=
        { id := freshId, threadId := thread.id, title := input.title
          content := input.content, createdAt := now, createdBy := auth.userId
          instanceId := input.instanceId, inReplyTo := input.inReplyTo
          pearlType := input.pearlType, authorshipType := input.authorshipType }
      ({ db with pearls := db.pearls ++ [pearl] }, .ok pearl)
    else
      (db, .error ("No write access to thread \"" ++ input.thread ++ "\""))

/-- Interface `RecentPearlsInput` from `pearl-service.ts`; the ISO `before` timestamp
is modelled as milliseconds. -/
structure RecentPearlsInput where
  thread : Option String := none
  limit : Option Nat := none
  before : Option Nat := none

/-- Ordering `ORDER BY created_at DESC` on a pearl query. -/
def sortByCreatedDesc (l : List Pearl) : List Pearl :=
  l.mergeSort (fun a b => decide (b.createdAt ≤ a.createdAt))

/-- The optional `lt(pearls.createdAt, new Date(input.before))` condition. -/
def beforeFilter (before : Option Nat) (p : Pearl) : Bool :=
  match before with
  | some b => decide (p.createdAt < b)
  | none => true

/-- The left-join query collecting accessible thread ids (public or granted
to one of the identity's roles), deduplicated with `new Set`, used by the
no-thread branches of `getRecentPearls`. -/
def accessibleIdsJoin (db : DBState) (roles : List String) : List String :=
  ((db.threads.filter fun t =>
      t.isPublic || db.threadAccess.any fun a =>
        a.threadId == t.id && roles.contains a.role).map (·.id)).eraseDups

/-- Function `getRecentPearls`: per-thread branch with slug lookup and read-access
check, non-admin branch filtered to accessible threads, admin branch over
all pearls; all ordered by creation timestamp descending with the exclusive
`before` cursor and the `Math.min(input.limit || 10, 50)` page size. -/
def getRecentPearls (db : DBState) (input : RecentPearlsInput)
    (auth : AuthContext) : List Pearl :=
  let limit := min (jsOrNat input.limit 10) 50
  if jsTruthy input.thread then
    match getThreadBySlug db (input.thread.getD "") with
    | none => []
    | some thread =>
      if checkThreadAccess db thread.id auth .read then
        (sortByCreatedDesc (db.pearls.filter fun p =>
          p.threadId == thread.id && beforeFilter input.before p)).take limit
      else []
  else if !(auth.roles.contains "admin") then
    let threadIds := accessibleIdsJoin db auth.roles
    if threadIds.isEmpty then []
    else
      (sortByCreatedDesc (db.pearls.filter fun p =>
        threadIds.contains p.threadId && beforeFilter input.before p)).take limit
  else
    (sortByCreatedDesc (db.pearls.filter (beforeFilter input.before))).take limit

/-- The zod-validated argument shape of the `pearl_create` tool
(`pearl-create.ts`); a value of this type is a well-formed parsed input. -/
structure PearlCreateArgs where
  thread : String
  content : String
  title : Option String := none
  in_reply_to : Option String := none
  pearl_type : Option String := none
  authorship_type : Option String := none

/-- Function `handlePearlCreate` after schema validation: reject anonymous callers
outright, otherwise delegate to `createPearl`. -/
def handlePearlCreate (db : DBState) (now : Nat) (freshId : String)
    (args : PearlCreateArgs) (auth : AuthContext) : DBState × Except String Pearl :=
  if auth.isAnonymous then
    (db, .error "Authentication required to create pearls")
  else
    createPearl db now freshId
      { thread := args.thread, content := args.content, title := args.title
        inReplyTo := args.in_reply_to, pearlType := args.pearl_type
        authorshipType := args.authorship_type } auth

/-! ## Claim C8 -/

/-- C8: a create-content call with an anonymous identity returns the
authorization error for every store state — including states where the
target thread exists and is public — so the outcome is decided before any
thread lookup, and the store it returns is exactly the input store (nothing
is persisted). -/
theorem C8_create_anonymous_rejected (now : Nat) (freshId : String)
    (args : PearlCreateArgs) (auth : AuthContext) (h : auth.isAnonymous = true) :
    ∀ db : DBState,
      (handlePearlCreate db now freshId args auth).2
          = .error "Authentication required to create pearls"
      ∧ (handlePearlCreate db now freshId args auth).1 = db := by
  intro db
  simp [handlePearlCreate, h]

/-- Witness for C8: anonymous creation into an existing public thread is
rejected and persists nothing. -/
theorem C8_create_anonymous_rejected_witness :
    (handlePearlCreate
        { threads := [{ id := "t9", slug := "public-reflections",
                        name := "Public Reflections", isPublic := true }]
          threadAccess := [], pearls := [] }
        1000 "p1" { thread := "public-reflections", content := "hi" }
        { userId := none, email := none, roles := ["anonymous"], isAnonymous := true }).2
      = .error "Authentication required to create pearls"
    ∧ (handlePearlCreate
        { threads := [{ id := "t9", slug := "public-reflections",
                        name := "Public Reflections", isPublic := true }]
          threadAccess := [], pearls := [] }
        1000 "p1" { thread := "public-reflections", content := "hi" }
        { userId := none, email := none, roles := ["anonymous"], isAnonymous := true }).1
      = { threads := [{ id := "t9", slug := "public-reflections",
                        name := "Public Reflections", isPublic := true }]
          threadAccess := [], pearls := [] } :=
  C8_create_anonymous_rejected 1000 "p1"
    { thread := "public-reflections", content := "hi" }
    { userId := none, email := none, roles := ["anonymous"], isAnonymous := true }
    rfl _

/-! ## Claim C10 -/

theorem checkThreadAccess_write_imp_read (db : DBState) (threadId : String)
    (auth : AuthContext) (h : checkThreadAccess db threadId auth .write = true) :
    checkThreadAccess db threadId auth .read = true := by
  rcases (checkThreadAccess_iff db threadId auth .write).1 h with
    h' | ⟨h', _⟩ | ⟨a, ha, h1, h2, _⟩
  · exact (checkThreadAccess_iff db threadId auth .read).2 (Or.inl h')
  · cases h'
  · exact (checkThreadAccess_iff db threadId auth .read).2
      (Or.inr (Or.inr ⟨a, ha, h1, h2, by cases a.permission <;> simp [permRank]⟩))

theorem head_of_take (n : Nat) (hn : 1 ≤ n) (l : List Pearl) :
    (l.take n).head? = l.head? := by
  cases l with
  | nil => simp
  | cons x xs =>
    cases n with
    | zero => omega
    | succ m => simp [List.take]

/-- If `x` is in `l` and strictly newer than every other element, it is the
head of the descending-by-creation sort. -/
theorem head_sortByCreatedDesc (l : List Pearl) (x : Pearl) (hx : x ∈ l)
    (hmax : ∀ y ∈ l, y ≠ x → y.createdAt < x.createdAt) :
    (sortByCreatedDesc l).head? = some x := by
  have hperm := List.mergeSort_perm l (fun a b => decide (b.createdAt ≤ a.createdAt))
  have hsort := @List.sorted_mergeSort Pearl
    (fun a b => decide (b.createdAt ≤ a.createdAt))
    (fun a b c hab hbc => by simp at hab hbc ⊢; omega)
    (fun a b => by simp [Bool.or_eq_true]; omega) l
  unfold sortByCreatedDesc
  set s := l.mergeSort (fun a b => decide (b.createdAt ≤ a.createdAt)) with hs
  have hmem : x ∈ s := hperm.symm.subset hx
  cases hseq : s with
  | nil => rw [hseq] at hmem; cases hmem
  | cons h t =>
    rw [hseq] at hmem hsort hperm
    rcases List.mem_cons.1 hmem with hxh | hxt
    · simp [hxh]
    · by_cases hhe : h = x
      · simp [hhe]
      · exfalso
        have hhl : h ∈ l := hperm.subset (List.mem_cons_self h t)
        have hle : x.createdAt ≤ h.createdAt := by
          have := (List.pairwise_cons.1 hsort).1 x hxt
          simpa using this
        have := hmax h hhl hhe
        omega

/-- C10: creating a pearl in a thread the identity can write to, then
immediately listing "recent" for that thread (no cursor, positive limit),
returns the new pearl first, because results are ordered by creation
timestamp descending and the new pearl's store-assigned timestamp is newer
than every pre-existing one. -/
theorem C10_create_then_recent (db : DBState) (now : Nat) (freshId : String)
    (input : CreatePearlInput) (auth : AuthContext) (t : Thread) (lim : Nat)
    (hthread : getThreadBySlug db input.thread = some t)
    (hslug : input.thread ≠ "")
    (hwrite : checkThreadAccess db t.id auth .write = true)
    (hfresh : ∀ p ∈ db.pearls, p.createdAt < now)
    (hlimit : 1 ≤ lim) :
    ∃ (db' : DBState) (pearl : Pearl),
      createPearl db now freshId input auth = (db', .ok pearl)
      ∧ (getRecentPearls db'
          { thread := some input.thread, limit := some lim, before := none }
          auth).head? = some pearl := by
  classical
  set pearl : Pearl :=
    { id := freshId, threadId := t.id, title := input.title
      content := input.content, createdAt := now, createdBy := auth.userId
      instanceId := input.instanceId, inReplyTo := input.inReplyTo
      pearlType := input.pearlType, authorshipType := input.authorshipType } with hpearl
  set db' : DBState := { db with pearls := db.pearls ++ [pearl] } with hdb'
  refine ⟨db', pearl, ?_, ?_⟩
  · unfold createPearl
    rw [hthread]
    simp [hwrite, hpearl]
  · have hthreads : db'.threads = db.threads := rfl
    have haccess : db'.threadAccess = db.threadAccess := rfl
    have hthread' : getThreadBySlug db' input.thread = some t := by
      unfold getThreadBySlug
      rw [hthreads]
      exact hthread
    have hread : checkThreadAccess db' t.id auth .read = true := by
      have : checkThreadAccess db t.id auth .read = true :=
        checkThreadAccess_write_imp_read db t.id auth hwrite
      unfold checkThreadAccess threadIsPublic at this ⊢
      rw [hthreads, haccess]
      exact this
    unfold getRecentPearls
    have hjs : jsTruthy (some input.thread) = true := by
      simp [jsTruthy, hslug]
    rw [hjs]
    simp only [if_true, Option.getD]
    rw [hthread']
    simp only [hread, if_true]
    have hflt :
        db'.pearls.filter (fun p => p.threadId == t.id && beforeFilter none p)
          = db.pearls.filter (fun p => p.threadId == t.id && beforeFilter none p)
              ++ [pearl] := by
      show (db.pearls ++ [pearl]).filter _ = _
      rw [List.filter_append]
      congr 1
      simp [beforeFilter, hpearl]
    have hlim' : 1 ≤ min (jsOrNat (some lim) 10) 50 := by
      unfold jsOrNat
      have : lim ≠ 0 := by omega
      simp [this]
      omega
    rw [head_of_take _ hlim']
    apply head_sortByCreatedDesc
    · rw [hflt]
      exact List.mem_append_right _ (List.mem_singleton.2 rfl)
    · intro y hy hne
      rw [hflt] at hy
      rcases List.mem_append.1 hy with hy' | hy'
      · have : y ∈ db.pearls := (List.mem_filter.1 hy').1
        have := hfresh y this
        simpa [hpearl] using this
      · exact absurd (List.mem_singleton.1 hy') hne

/-- Witness for C10 on a concrete store: create into the granted private
thread, then "recent" returns the new pearl first. -/
theorem C10_create_then_recent_witness :
    ∃ (db' : DBState) (pearl : Pearl),
      createPearl exDbWrite 500 "p77"
        { thread := "alpha", content := "hello" } exMember = (db', .ok pearl)
      ∧ (getRecentPearls db'
          { thread := some "alpha", limit := some 5, before := none }
          exMember).head? = some pearl :=
  C10_create_then_recent exDbWrite 500 "p77"
    { thread := "alpha", content := "hello" } exMember exThread 5
    (by decide) (by decide) (by decide) (by intro p hp; cases hp) (by decide)

/-! ## Identity Resolver (`src/middleware/auth.ts`, `src/services/workos.ts`) -/

/-- Check `token.startsWith(prefix)` modelled on the character lists (the built-in
`String.startsWith` decides the same prefix relation but does not reduce
definitionally, so witnesses could not evaluate it). -/
def strStartsWith (s p : String) : Bool :=
  p.data.isPrefixOf s.data

/-- Function `resolveUserRoles` from `workos.ts`: `authenticated` always, plus
`admin` and `aurora:member` when the user id is on the static allow-lists. -/
def resolveUserRoles (adminUserIds auroraMemberIds : List String)
    (userId : String) : List String :=
  ["authenticated"]
    ++ (if adminUserIds.contains userId then ["admin"] else [])
    ++ (if auroraMemberIds.contains userId then ["aurora:member"] else [])

/-- A row of the `api_keys` table as created by `scripts/generate-api-key.ts`:
`user_id` is a nullable column and `roles` an arbitrary stored list (the
`roles || ['authenticated']` read in `verifyApiKey` also guards a null). -/
structure ApiKeyRecord where
  keyHash : String
  userId : Option String
  roles : Option (List String)
  disabled : Bool
deriving DecidableEq, Repr

/-- Shape `AuthTokenPayload`: the verified payload of a self-issued token — user
id, optional email, and a roles snapshot, per the fields `oauth.ts` signs. -/
structure AuthTokenPayload where
  userId : String
  email : Option String := none
  roles : List String := []
deriving DecidableEq, Repr

/-- Interface `WorkOSUser` from `workos.ts`. -/
structure WorkOSUser where
  userId : String
  email : String
deriving DecidableEq, Repr

/-- The claims `verifyWorkOSToken` reads off a decoded third-party token. -/
structure DecodedClaims where
  sub : Option String := none
  email : Option String := none
deriving DecidableEq, Repr

/-- Ambient state and collaborators of the Identity Resolver. `verifyToken`
stands for the symmetric-signature verifier of `lib/jwt.ts` (absent from the
sources; per the spec it returns the verified payload or fails) and
`jwtDecode` for the third-party token decoding; both are abstract function
parameters, so every theorem below holds for any verifier. `sha256hex` is
the one-way key hash; `updateLastUsedThrows` says whether the best-effort
`last_used_at` UPDATE raises on this request. -/
structure AuthWorld where
  sha256hex : String → String
  apiKeys : List ApiKeyRecord
  updateLastUsedThrows : Bool
  verifyToken : String → Option AuthTokenPayload
  jwtDecode : String → Option DecodedClaims
  adminUserIds : List String
  auroraMemberIds : List String

/-- The anonymous identity literal returned by `extractAuthContext`. -/
def anonymousContext : AuthContext :=
  { userId := none, email := none, roles := ["anonymous"], isAnonymous := true }

/-- Function `verifyApiKey` from `middleware/auth.ts`: prefix check, hash lookup of a
non-disabled row, then the `last_used_at` UPDATE before returning — the
surrounding `try/catch` turns a raised update failure into a `null` result. -/
def verifyApiKey (w : AuthWorld) (token : String) : Option AuthContext :=
  if !(strStartsWith token "pearl_") then
    none
  else
    match w.apiKeys.find? (fun r => r.keyHash == w.sha256hex token && !r.disabled) with
    | none => none
    | some r =>
      if w.updateLastUsedThrows then
        none
      else
        some { userId := r.userId, email := none
               roles := r.roles.getD ["authenticated"], isAnonymous := false }

/-- Function `verifyWorkOSToken` from `workos.ts`: decode without signature
verification, require a truthy `sub`, default a missing email to `''`. -/
def verifyWorkOSToken (w : AuthWorld) (accessToken : String) : Option WorkOSUser :=
  match w.jwtDecode accessToken with
  | none => none
  | some d =>
    if jsTruthy d.sub then
      some { userId := d.sub.getD "", email := d.email.getD "" }
    else
      none

/-- Evaluation of `payload.email || null` — a missing or empty email becomes null. -/
def jsOrNull : Option String → Option String
  | some e => if e == "" then none else some e
  | none => none

/-- The WorkOS fallback tail of `extractAuthContext`. -/
def thirdPartyContext (w : AuthWorld) (tok : String) : AuthContext :=
  match verifyWorkOSToken w tok with
  | none => anonymousContext
  | some u =>
    { userId := some u.userId, email := some u.email
      roles := resolveUserRoles w.adminUserIds w.auroraMemberIds u.userId
      isAnonymous := false }

/-- Function `extractAuthContext` from `middleware/auth.ts`, taking the already
extracted bearer value (`getBearerToken` returns the token or null): no or
empty credential → anonymous; `pearl_`-prefixed → API-key path falling back
to anonymous; then the self-issued-token path, whose verified payloads get
their roles re-resolved; then the third-party path. A verification failure
or a falsy payload user id falls through to the next step. -/
def extractAuthContext (w : AuthWorld) (token : Option String) : AuthContext :=
  match token with
  | none => anonymousContext
  | some tok =>
    if tok == "" then
      anonymousContext
    else if strStartsWith tok "pearl_" then
      match verifyApiKey w tok with
      | some ctx => ctx
      | none => anonymousContext
    else
      match w.verifyToken tok with
      | some p =>
        if p.userId != "" then
          { userId := some p.userId, email := jsOrNull p.email
            roles := resolveUserRoles w.adminUserIds w.auroraMemberIds p.userId
            isAnonymous := false }
        else
          thirdPartyContext w tok
      | none => thirdPartyContext w tok

/-! ## Lemmas about the resolver -/

theorem resolveUserRoles_head (a b : List String) (u : String) :
    ∃ rest, resolveUserRoles a b u = "authenticated" :: rest := by
  unfold resolveUserRoles
  exact ⟨_, rfl⟩

theorem resolveUserRoles_ne_anonymous (a b : List String) (u : String) :
    resolveUserRoles a b u ≠ ["anonymous"] := by
  obtain ⟨rest, hr⟩ := resolveUserRoles_head a b u
  rw [hr]
  intro h
  have := List.head_eq_of_cons_eq h
  simp at this

/-! ## Claim C6 -/

/-- C6: a credential that verifies as a self-issued token gets its roles
re-resolved from static configuration — they are exactly
`resolveUserRoles(payload.userId)` — so two valid tokens for the same user
id resolve to identical role sets no matter what role snapshots they embed. -/
theorem C6_jwt_roles_reresolved (w : AuthWorld) (t1 t2 : String)
    (p1 p2 : AuthTokenPayload)
    (h1e : t1 ≠ "") (h1p : strStartsWith t1 "pearl_" = false)
    (h1 : w.verifyToken t1 = some p1) (h1u : p1.userId ≠ "")
    (h2e : t2 ≠ "") (h2p : strStartsWith t2 "pearl_" = false)
    (h2 : w.verifyToken t2 = some p2) (h2u : p2.userId ≠ "")
    (hsame : p1.userId = p2.userId) :
    (extractAuthContext w (some t1)).roles
        = resolveUserRoles w.adminUserIds w.auroraMemberIds p1.userId
    ∧ (extractAuthContext w (some t1)).roles = (extractAuthContext w (some t2)).roles := by
  have e1 : extractAuthContext w (some t1)
      = { userId := some p1.userId, email := jsOrNull p1.email
          roles := resolveUserRoles w.adminUserIds w.auroraMemberIds p1.userId
          isAnonymous := false } := by
    unfold extractAuthContext
    simp [h1e, h1p, h1, h1u]
  have e2 : extractAuthContext w (some t2)
      = { userId := some p2.userId, email := jsOrNull p2.email
          roles := resolveUserRoles w.adminUserIds w.auroraMemberIds p2.userId
          isAnonymous := false } := by
    unfold extractAuthContext
    simp [h2e, h2p, h2, h2u]
  refine ⟨by rw [e1], ?_⟩
  rw [e1, e2, hsame]

/-- Witness for C6: two concrete tokens for user `u` embedding the
different role snapshots `["x"]` and `["y"]` resolve to the same roles. -/
theorem C6_jwt_roles_reresolved_witness :
    (extractAuthContext
        { sha256hex := fun _ => "", apiKeys := [], updateLastUsedThrows := false
          verifyToken := fun s =>
            if s == "tok1" then some { userId := "u", roles := ["x"] }
            else if s == "tok2" then some { userId := "u", roles := ["y"] }
            else none
          jwtDecode := fun _ => none, adminUserIds := [], auroraMemberIds := [] }
        (some "tok1")).roles
      = resolveUserRoles [] [] "u"
    ∧ (extractAuthContext
        { sha256hex := fun _ => "", apiKeys := [], updateLastUsedThrows := false
          verifyToken := fun s =>
            if s == "tok1" then some { userId := "u", roles := ["x"] }
            else if s == "tok2" then some { userId := "u", roles := ["y"] }
            else none
          jwtDecode := fun _ => none, adminUserIds := [], auroraMemberIds := [] }
        (some "tok1")).roles
      = (extractAuthContext
        { sha256hex := fun _ => "", apiKeys := [], updateLastUsedThrows := false
          verifyToken := fun s =>
            if s == "tok1" then some { userId := "u", roles := ["x"] }
            else if s == "tok2" then some { userId := "u", roles := ["y"] }
            else none
          jwtDecode := fun _ => none, adminUserIds := [], auroraMemberIds := [] }
        (some "tok2")).roles :=
  C6_jwt_roles_reresolved _ "tok1" "tok2"
    { userId := "u", roles := ["x"] } { userId := "u", roles := ["y"] }
    (by decide) (by decide) (by decide) (by decide)
    (by decide) (by decide) (by decide) (by decide) rfl

/-! ## Claim C5 -/

/-- World for the C5 counterexample: the presented key hashes to a stored,
non-disabled record for user `u`, and the `last_used_at` UPDATE raises. -/
def c5World : AuthWorld :=
  { sha256hex := fun _ => "H"
    apiKeys := [{ keyHash := "H", userId := some "u"
                  roles := some ["authenticated"], disabled := false }]
    updateLastUsedThrows := true
    verifyToken := fun _ => none
    jwtDecode := fun _ => none
    adminUserIds := []
    auroraMemberIds := [] }

/-- C5 counterexample: the key matches a stored non-disabled record, yet
because the best-effort `last_used_at` UPDATE raises inside `verifyApiKey`'s
`try` block, resolution returns the anonymous identity instead of the key's
identity — refuting the claim that an update failure does not change the
outcome. -/
theorem C5_counterexample :
    (c5World.apiKeys.find? fun r =>
        r.keyHash == c5World.sha256hex "pearl_k" && !r.disabled)
      = some { keyHash := "H", userId := some "u"
               roles := some ["authenticated"], disabled := false }
    ∧ extractAuthContext c5World (some "pearl_k") = anonymousContext := by
  constructor
  · rfl
  · rfl

/-- C5 amended: for a `pearl_`-prefixed credential whose hash matches a
stored non-disabled record, resolution returns the record's identity when
the `last_used_at` update succeeds; when the update raises, the `try/catch`
makes `verifyApiKey` return null and resolution falls back to the anonymous
identity (it never fails outright). -/
theorem C5_apiKey_resolution (w : AuthWorld) (token : String) (r : ApiKeyRecord)
    (hpfx : strStartsWith token "pearl_" = true)
    (hfind : (w.apiKeys.find? fun r =>
        r.keyHash == w.sha256hex token && !r.disabled) = some r) :
    (w.updateLastUsedThrows = false →
      extractAuthContext w (some token)
        = { userId := r.userId, email := none
            roles := r.roles.getD ["authenticated"], isAnonymous := false })
    ∧ (w.updateLastUsedThrows = true →
      extractAuthContext w (some token) = anonymousContext) := by
  have hne : (token == "") = false := by
    rcases eq_or_ne token "" with h | h
    · subst h
      exact absurd hpfx (by decide)
    · simp [h]
  constructor
  · intro hupd
    simp [extractAuthContext, verifyApiKey, hne, hpfx, hfind, hupd]
  · intro hupd
    simp [extractAuthContext, verifyApiKey, hne, hpfx, hfind, hupd]

/-- Witness for C5's amended theorem: the success leg at a world where the
update does not raise, the fallback leg at `c5World`. -/
theorem C5_apiKey_resolution_witness :
    extractAuthContext { c5World with updateLastUsedThrows := false }
        (some "pearl_k")
      = { userId := some "u", email := none
          roles := ["authenticated"], isAnonymous := false }
    ∧ extractAuthContext c5World (some "pearl_k") = anonymousContext := by
  constructor
  · exact (C5_apiKey_resolution { c5World with updateLastUsedThrows := false }
      "pearl_k"
      { keyHash := "H", userId := some "u"
        roles := some ["authenticated"], disabled := false }
      (by decide) rfl).1 rfl
  · exact (C5_apiKey_resolution c5World "pearl_k"
      { keyHash := "H", userId := some "u"
        roles := some ["authenticated"], disabled := false }
      (by decide) rfl).2 rfl

/-! ## Claim C9 -/

/-- Case split for `thirdPartyContext`: anonymous, or a resolved identity. -/
theorem thirdParty_cases (w : AuthWorld) (tok : String) :
    thirdPartyContext w tok = anonymousContext
    ∨ ∃ uid : String,
        (thirdPartyContext w tok).roles
            = resolveUserRoles w.adminUserIds w.auroraMemberIds uid
        ∧ (thirdPartyContext w tok).userId = some uid
        ∧ (thirdPartyContext w tok).isAnonymous = false := by
  unfold thirdPartyContext
  cases hw : verifyWorkOSToken w tok with
  | none => exact Or.inl rfl
  | some u => exact Or.inr ⟨u.userId, rfl, rfl, rfl⟩

/-- Every result of `extractAuthContext` is either the anonymous literal, an
API-key record's identity, or a token identity whose roles come from
`resolveUserRoles` over a non-empty user id. -/
theorem extractAuthContext_cases (w : AuthWorld) (token : Option String) :
    extractAuthContext w token = anonymousContext
    ∨ (∃ r ∈ w.apiKeys, extractAuthContext w token
        = { userId := r.userId, email := none
            roles := r.roles.getD ["authenticated"], isAnonymous := false })
    ∨ (∃ uid : String,
        (extractAuthContext w token).roles
            = resolveUserRoles w.adminUserIds w.auroraMemberIds uid
        ∧ (extractAuthContext w token).userId = some uid
        ∧ (extractAuthContext w token).isAnonymous = false) := by
  cases token with
  | none => exact Or.inl rfl
  | some tok =>
    by_cases he : (tok == "") = true
    · left
      simp [extractAuthContext, he]
    · rw [Bool.not_eq_true] at he
      by_cases hp : strStartsWith tok "pearl_" = true
      · cases hv : verifyApiKey w tok with
        | none =>
          left
          simp [extractAuthContext, he, hp, hv]
        | some ctx =>
          have hE : extractAuthContext w (some tok) = ctx := by
            simp [extractAuthContext, he, hp, hv]
          unfold verifyApiKey at hv
          rw [hp] at hv
          simp only [Bool.not_true, Bool.false_eq_true, if_false] at hv
          cases hfind : w.apiKeys.find? (fun r => r.keyHash == w.sha256hex tok && !r.disabled) with
          | none => rw [hfind] at hv; cases hv
          | some r =>
            rw [hfind] at hv
            have hv' : (if w.updateLastUsedThrows = true then none
                else some { userId := r.userId, email := none
                            roles := r.roles.getD ["authenticated"]
                            isAnonymous := false }) = some ctx := hv
            by_cases hu : w.updateLastUsedThrows = true
            · rw [if_pos hu] at hv'
              cases hv'
            · rw [if_neg hu] at hv'
              have hctx := Option.some.inj hv'
              exact Or.inr (Or.inl ⟨r, List.mem_of_find?_eq_some hfind,
                hE.trans hctx.symm⟩)
      · rw [Bool.not_eq_true] at hp
        cases hv : w.verifyToken tok with
        | some p =>
          by_cases hu : (p.userId != "") = true
          · have hE : extractAuthContext w (some tok)
                = { userId := some p.userId, email := jsOrNull p.email
                    roles := resolveUserRoles w.adminUserIds w.auroraMemberIds p.userId
                    isAnonymous := false } := by
              simp [extractAuthContext, he, hp, hv, hu]
            exact Or.inr (Or.inr ⟨p.userId, by rw [hE], by rw [hE], by rw [hE]⟩)
          · have hE : extractAuthContext w (some tok) = thirdPartyContext w tok := by
              rw [Bool.not_eq_true] at hu
              simp [extractAuthContext, he, hp, hv, hu]
            rw [hE]
            rcases thirdParty_cases w tok with h | h
            · exact Or.inl h
            · exact Or.inr (Or.inr h)
        | none =>
          have hE : extractAuthContext w (some tok) = thirdPartyContext w tok := by
            simp [extractAuthContext, he, hp, hv]
          rw [hE]
          rcases thirdParty_cases w tok with h | h
          · exact Or.inl h
          · exact Or.inr (Or.inr h)

/-- World for the C9 counterexample: a real row the key-generation script
can produce (`user_id` null, stored roles `{"anonymous"}`) matched by the
presented key. -/
def c9World : AuthWorld :=
  { sha256hex := fun _ => "H"
    apiKeys := [{ keyHash := "H", userId := none
                  roles := some ["anonymous"], disabled := false }]
    updateLastUsedThrows := false
    verifyToken := fun _ => none
    jwtDecode := fun _ => none
    adminUserIds := []
    auroraMemberIds := [] }

/-- C9 counterexample: resolving an API key whose stored record has a null
user id and stored roles `["anonymous"]` yields an identity with
`isAnonymous = false`, `roles = ["anonymous"]` and `userId = null`, so the
claimed iff-invariant (and the claim that API-key identities always carry a
non-null user id and roles other than `{"anonymous"}`) fails. -/
theorem C9_invariant_counterexample :
    ((extractAuthContext c9World (some "pearl_k")).isAnonymous = false
      ∧ (extractAuthContext c9World (some "pearl_k")).roles = ["anonymous"]
      ∧ (extractAuthContext c9World (some "pearl_k")).userId = none)
    ∧ ¬ ((extractAuthContext c9World (some "pearl_k")).isAnonymous = true ↔
        ((extractAuthContext c9World (some "pearl_k")).roles = ["anonymous"]
          ∧ (extractAuthContext c9World (some "pearl_k")).userId = none)) := by
  decide

/-- C9 amended: provided every stored API-key record carries a non-null
user id and stored roles other than `["anonymous"]`, every identity
returned by `extractAuthContext` satisfies the invariant
`isAnonymous = true` iff `roles = ["anonymous"]` and `userId = null`;
resolving with no credential always yields the anonymous identity; and
every non-anonymous identity (API key, self-issued token, or third-party
token) has a non-null user id and a role set other than `["anonymous"]`. -/
theorem C9_invariant_amended (w : AuthWorld)
    (hkeys : ∀ r ∈ w.apiKeys, r.userId ≠ none
        ∧ r.roles.getD ["authenticated"] ≠ ["anonymous"]) :
    (∀ token : Option String,
      (extractAuthContext w token).isAnonymous = true ↔
        ((extractAuthContext w token).roles = ["anonymous"]
          ∧ (extractAuthContext w token).userId = none))
    ∧ extractAuthContext w none = anonymousContext
    ∧ (∀ token : Option String,
        (extractAuthContext w token).isAnonymous = false →
        (extractAuthContext w token).userId ≠ none
          ∧ (extractAuthContext w token).roles ≠ ["anonymous"]) := by
  have main : ∀ token : Option String,
      ((extractAuthContext w token).isAnonymous = true ↔
        ((extractAuthContext w token).roles = ["anonymous"]
          ∧ (extractAuthContext w token).userId = none))
      ∧ ((extractAuthContext w token).isAnonymous = false →
        (extractAuthContext w token).userId ≠ none
          ∧ (extractAuthContext w token).roles ≠ ["anonymous"]) := by
    intro token
    rcases extractAuthContext_cases w token with h | ⟨r, hr, h⟩ | ⟨uid, hro, hu, ha⟩
    · rw [h]
      constructor
      · simp [anonymousContext]
      · intro hfalse
        rw [show anonymousContext.isAnonymous = true from rfl] at hfalse
        cases hfalse
    · have hk := hkeys r hr
      rw [h]
      constructor
      · constructor
        · intro hfalse; cases hfalse
        · rintro ⟨hro, _⟩
          exact absurd hro hk.2
      · intro _
        exact ⟨hk.1, hk.2⟩
    · constructor
      · constructor
        · intro htrue
          rw [ha] at htrue
          cases htrue
        · rintro ⟨hro', _⟩
          rw [hro] at hro'
          exact absurd hro' (resolveUserRoles_ne_anonymous _ _ _)
      · intro _
        refine ⟨?_, ?_⟩
        · rw [hu]; simp
        · rw [hro]
          exact resolveUserRoles_ne_anonymous _ _ _
  exact ⟨fun token => (main token).1, rfl, fun token => (main token).2⟩

/-- Witness for C9's amended theorem at a well-formed world: a matching key
with a user id resolves to a non-anonymous identity obeying the invariant,
and no credential resolves to the anonymous identity. -/
theorem C9_invariant_amended_witness :
    ((extractAuthContext { c9World with
        apiKeys := [{ keyHash := "H", userId := some "u"
                      roles := some ["authenticated"], disabled := false }] }
        (some "pearl_k")).isAnonymous = true ↔
      ((extractAuthContext { c9World with
        apiKeys := [{ keyHash := "H", userId := some "u"
                      roles := some ["authenticated"], disabled := false }] }
        (some "pearl_k")).roles = ["anonymous"]
        ∧ (extractAuthContext { c9World with
        apiKeys := [{ keyHash := "H", userId := some "u"
                      roles := some ["authenticated"], disabled := false }] }
        (some "pearl_k")).userId = none))
    ∧ extractAuthContext { c9World with
        apiKeys := [{ keyHash := "H", userId := some "u"
                      roles := some ["authenticated"], disabled := false }] }
        none = anonymousContext :=
  ⟨((C9_invariant_amended _ (by decide)).1 (some "pearl_k")),
    (C9_invariant_amended { c9World with
        apiKeys := [{ keyHash := "H", userId := some "u"
                      roles := some ["authenticated"], disabled := false }] }
      (by decide)).2.1⟩

/-! ## Authorization Code/Token Issuer (`src/routes/oauth.ts`) -/

/-- A value of the `authorizationCodes` in-memory map: either a minted
authorization-code record or (under a `pending_`-prefixed key) a pending
authorization, whose extra `state` field the callback echoes. -/
structure AuthCodeData where
  clientId : String
  userId : String
  email : String
  redirectUri : String
  codeChallenge : Option String := none
  codeChallengeMethod : Option String := none
  expiresAt : Nat
  state : Option String := none
deriving DecidableEq, Repr

/-- A value of the `registeredClients` map. -/
structure ClientRecord where
  clientId : String
  clientSecret : Option String := none
  clientName : String
  redirectUris : List String
deriving DecidableEq, Repr

/-- A row of the `refresh_tokens` table. -/
structure RefreshTokenRecord where
  tokenHash : String
  userId : String
  email : Option String
  expiresAt : Nat
deriving DecidableEq, Repr

/-- Mutable state the OAuth router reads and writes: the two in-memory maps
and the refresh-token table. -/
structure OAuthStore where
  authorizationCodes : List (String × AuthCodeData)
  registeredClients : List (String × ClientRecord)
  refreshTokens : List RefreshTokenRecord
deriving Repr

/-- Collaborators of the OAuth router: the two one-way hashes, the token
signer of `lib/jwt.ts` (absent from the sources; per the spec it mints a
signed access token from user id, email and roles), the WorkOS
code-for-user exchange, and the static role allow-lists. -/
structure OAuthConfig where
  sha256base64url : String → String
  sha256hex : String → String
  signToken : String → Option String → List String → String
  workosExchange : String → Option WorkOSUser
  adminUserIds : List String
  auroraMemberIds : List String

/-- Operation `Map.set`: replace any existing entry for the key, then add. -/
def storeSet (m : List (String × AuthCodeData)) (k : String) (v : AuthCodeData) :
    List (String × AuthCodeData) :=
  (k, v) :: m.filter (fun kv => kv.1 != k)

/-- Operation `Map.delete`. -/
def storeDelete (m : List (String × AuthCodeData)) (k : String) :
    List (String × AuthCodeData) :=
  m.filter (fun kv => kv.1 != k)

/-- Outcome of the `/oauth/callback` route. -/
inductive CallbackResult where
  | badRequest (msg : String)
  | serverError
  | redirect (uri : String) (code : String) (echoedState : Option String)
deriving DecidableEq, Repr

/-- The `/oauth/callback` handler: require `code` and `state`, look the
pending authorization up under `pending_<state>` (presence only — the
record's `expiresAt` is not consulted), delete it, exchange the provider
code for a user, mint a fresh authorization code expiring in 5 minutes, and
redirect to the original client redirect URI. A failing provider exchange
raises into the catch-all after the pending record was already deleted. -/
def oauthCallback (cfg : OAuthConfig) (st : OAuthStore) (now : Nat)
    (code state : Option String) (freshCode : String) :
    OAuthStore × CallbackResult :=
  if !jsTruthy code || !jsTruthy state then
    (st, .badRequest "Missing code or state")
  else
    let pendingKey := "pending_" ++ state.getD ""
    match st.authorizationCodes.lookup pendingKey with
    | none => (st, .badRequest "Invalid or expired state")
    | some pending =>
      let st1 := { st with authorizationCodes := storeDelete st.authorizationCodes pendingKey }
      match cfg.workosExchange (code.getD "") with
      | none => (st1, .serverError)
      | some user =>
        let record : AuthCodeData :=
          { clientId := pending.clientId, userId := user.userId
            email := user.email, redirectUri := pending.redirectUri
            codeChallenge := pending.codeChallenge
            codeChallengeMethod := pending.codeChallengeMethod
            expiresAt := now + 5 * 60 * 1000 }
        ({ st1 with authorizationCodes := storeSet st1.authorizationCodes freshCode record },
          .redirect pending.redirectUri freshCode
            (if jsTruthy pending.state then pending.state else none))

/-- The form body of a `/token` request. -/
structure TokenRequest where
  grant_type : Option String := none
  code : Option String := none
  redirect_uri : Option String := none
  code_verifier : Option String := none
  refresh_token : Option String := none
  client_id : Option String := none
  client_secret : Option String := none
deriving Repr

/-- Outcome of the `/token` route. -/
inductive TokenResult where
  | success (access_token : String) (expires_in : Nat)
      (refresh_token : Option String) (scope : String)
  | error (status : Nat) (code : String) (description : String)
deriving DecidableEq, Repr

/-- The opening client-credential validation of the `/token` handler: only
performed when both `client_id` and `client_secret` are truthy; fails when
the client is unknown or the secret differs. -/
def clientCheckFails (st : OAuthStore) (req : TokenRequest) : Bool :=
  jsTruthy req.client_id && jsTruthy req.client_secret &&
    match (st.registeredClients.lookup (req.client_id.getD "")) with
    | none => true
    | some c => c.clientSecret != req.client_secret

/-- The PKCE recomputation of the `/token` handler: S256 hashes the
verifier, any other registered method compares it directly. -/
def calculatedChallenge (cfg : OAuthConfig) (authData : AuthCodeData)
    (verifier : String) : String :=
  if authData.codeChallengeMethod == some "S256" then
    cfg.sha256base64url verifier
  else
    verifier

/-- The tail of the `authorization_code` grant once a live code was found
and PKCE (if performed) passed: delete the code, re-resolve roles, sign the
access token, persist the fresh refresh token's hash with a 30-day expiry,
and answer with both tokens and the space-joined role scope. -/
def issueTokens (cfg : OAuthConfig) (st : OAuthStore) (now : Nat)
    (fresh : String) (code : String) (authData : AuthCodeData) :
    OAuthStore × TokenResult :=
  let roles := resolveUserRoles cfg.adminUserIds cfg.auroraMemberIds authData.userId
  ({ st with
      authorizationCodes := storeDelete st.authorizationCodes code
      refreshTokens := st.refreshTokens ++
        [{ tokenHash := cfg.sha256hex fresh, userId := authData.userId
           email := some authData.email, expiresAt := now + 30 * 24 * 60 * 60 * 1000 }] },
    .success (cfg.signToken authData.userId (some authData.email) roles)
      604800 (some fresh) (String.intercalate " " roles))

/-- The `/token` handler (`router.post('/token')` in `oauth.ts`): optional
client-credential validation, then the `authorization_code` grant — missing
code, unknown-or-expired code (deleted on that check), PKCE verification
only when a challenge was registered AND a verifier was supplied (a
mismatch rejects without deleting the code), then `issueTokens` — or the
`refresh_token` grant, or an unsupported-grant rejection. `fresh` stands
for the generated refresh-token value. -/
def tokenExchange (cfg : OAuthConfig) (st : OAuthStore) (now : Nat)
    (fresh : String) (req : TokenRequest) : OAuthStore × TokenResult :=
  if clientCheckFails st req then
    (st, .error 401 "invalid_client" "Invalid client credentials")
  else if req.grant_type == some "authorization_code" then
    if !jsTruthy req.code then
      (st, .error 400 "invalid_request" "code is required")
    else
      let code := req.code.getD ""
      match st.authorizationCodes.lookup code with
      | none =>
        ({ st with authorizationCodes := storeDelete st.authorizationCodes code },
          .error 400 "invalid_grant" "Invalid or expired authorization code")
      | some authData =>
        if authData.expiresAt < now then
          ({ st with authorizationCodes := storeDelete st.authorizationCodes code },
            .error 400 "invalid_grant" "Invalid or expired authorization code")
        else if jsTruthy authData.codeChallenge && jsTruthy req.code_verifier then
          if calculatedChallenge cfg authData (req.code_verifier.getD "")
              != authData.codeChallenge.getD "" then
            (st, .error 400 "invalid_grant" "Invalid code_verifier")
          else
            issueTokens cfg st now fresh code authData
        else
          issueTokens cfg st now fresh code authData
  else if req.grant_type == some "refresh_token" then
    if !jsTruthy req.refresh_token then
      (st, .error 400 "invalid_request" "refresh_token is required")
    else
      let tokenHash := cfg.sha256hex (req.refresh_token.getD "")
      match st.refreshTokens.find? (fun r => r.tokenHash == tokenHash && now < r.expiresAt) with
      | none => (st, .error 400 "invalid_grant" "Invalid or expired refresh token")
      | some r =>
        let roles := resolveUserRoles cfg.adminUserIds cfg.auroraMemberIds r.userId
        (st, .success (cfg.signToken r.userId r.email roles)
          604800 none (String.intercalate " " roles))
  else
    (st, .error 400 "unsupported_grant_type"
      "Only authorization_code and refresh_token are supported")

/-! ## Lemmas about the issuer -/

theorem lookup_storeDelete (m : List (String × AuthCodeData)) (k : String) :
    (storeDelete m k).lookup k = none := by
  unfold storeDelete
  induction m with
  | nil => rfl
  | cons kv tl ih =>
    obtain ⟨k1, v1⟩ := kv
    by_cases h : k1 = k
    · simpa [List.filter_cons, h] using ih
    · simp only [List.filter_cons]
      have hb : ((k1, v1).1 != k) = true := by simp [h]
      rw [if_pos hb]
      simp only [List.lookup]
      have hkk : (k == k1) = false := by
        rw [beq_eq_false_iff_ne]
        exact fun hh => h hh.symm
      rw [hkk]
      exact ih

/-! ## Claim C2 -/

/-- Collaborators fixed for the concrete OAuth scenarios. -/
def exOAuthCfg : OAuthConfig :=
  { sha256base64url := fun s => s
    sha256hex := fun s => s
    signToken := fun _ _ _ => "signed"
    workosExchange := fun _ => some { userId := "u", email := "e" }
    adminUserIds := []
    auroraMemberIds := [] }

/-- A live authorization-code record with a registered plain challenge. -/
def exAuthData : AuthCodeData :=
  { clientId := "cid", userId := "u", email := "u@x"
    redirectUri := "https://client/cb", codeChallenge := some "chal"
    codeChallengeMethod := some "plain", expiresAt := 1000000 }

/-- Store holding the single authorization code `c7`. -/
def exOAuthStore : OAuthStore :=
  { authorizationCodes := [("c7", exAuthData)]
    registeredClients := []
    refreshTokens := [] }

/-- C2 counterexample: an exchange of the live code `c7` with a wrong PKCE
verifier is rejected, yet the code is still in the store afterwards, and a
later exchange of the very same code (with the right verifier) succeeds —
refuting the claim that every failed attempt deletes the code. -/
theorem C2_singleUse_counterexample :
    (tokenExchange exOAuthCfg exOAuthStore 0 "r1"
        { grant_type := some "authorization_code", code := some "c7"
          code_verifier := some "wrong" }).2
      = .error 400 "invalid_grant" "Invalid code_verifier"
    ∧ ((tokenExchange exOAuthCfg exOAuthStore 0 "r1"
        { grant_type := some "authorization_code", code := some "c7"
          code_verifier := some "wrong" }).1).authorizationCodes.lookup "c7"
      = some exAuthData
    ∧ (tokenExchange exOAuthCfg exOAuthStore 0 "r1"
        { grant_type := some "authorization_code", code := some "c7"
          code_verifier := some "chal" }).2
      = .success "signed" 604800 (some "r1") "authenticated" := by
  decide

/-- C2 amended: in an `authorization_code` exchange that passes the client
check, the code is deleted when it is unknown or expired and when the
attempt issues tokens — so a second exchange of a successfully used code is
rejected as invalid-or-expired — but a failed PKCE verification leaves the
store unchanged, so such a code stays usable. -/
theorem C2_code_deletion (cfg : OAuthConfig) (st : OAuthStore) (now : Nat)
    (fresh : String) (req : TokenRequest) (c : String)
    (hgrant : req.grant_type = some "authorization_code")
    (hcode : req.code = some c) (hc : c ≠ "")
    (hclient : clientCheckFails st req = false) :
    (st.authorizationCodes.lookup c = none →
      tokenExchange cfg st now fresh req
        = ({ st with authorizationCodes := storeDelete st.authorizationCodes c },
            .error 400 "invalid_grant" "Invalid or expired authorization code"))
    ∧ (∀ d, st.authorizationCodes.lookup c = some d → d.expiresAt < now →
      tokenExchange cfg st now fresh req
        = ({ st with authorizationCodes := storeDelete st.authorizationCodes c },
            .error 400 "invalid_grant" "Invalid or expired authorization code"))
    ∧ (∀ d, st.authorizationCodes.lookup c = some d → ¬ d.expiresAt < now →
        (jsTruthy d.codeChallenge && jsTruthy req.code_verifier) = true →
        calculatedChallenge cfg d (req.code_verifier.getD "") ≠ d.codeChallenge.getD "" →
      tokenExchange cfg st now fresh req
        = (st, .error 400 "invalid_grant" "Invalid code_verifier"))
    ∧ (∀ d, st.authorizationCodes.lookup c = some d → ¬ d.expiresAt < now →
        ((jsTruthy d.codeChallenge && jsTruthy req.code_verifier) = false
          ∨ calculatedChallenge cfg d (req.code_verifier.getD "") = d.codeChallenge.getD "") →
        ((tokenExchange cfg st now fresh req).1.authorizationCodes.lookup c = none
          ∧ (∃ tok sc, (tokenExchange cfg st now fresh req).2
              = .success tok 604800 (some fresh) sc)
          ∧ ∀ (now2 : Nat) (fresh2 : String),
              (tokenExchange cfg (tokenExchange cfg st now fresh req).1 now2 fresh2 req).2
                = .error 400 "invalid_grant" "Invalid or expired authorization code")) := by
  have hct : jsTruthy (some c) = true := by
    simp [jsTruthy, hc]
  refine ⟨?_, ?_, ?_, ?_⟩
  · intro hlook
    simp [tokenExchange, hclient, hgrant, hct, hcode, hlook]
  · intro d hlook hexp
    simp [tokenExchange, hclient, hgrant, hct, hcode, hlook, hexp]
  · intro d hlook hexp hpkce hne
    have hneb : (calculatedChallenge cfg d (req.code_verifier.getD "")
        != d.codeChallenge.getD "") = true := by simp [hne]
    simp [tokenExchange, hclient, hgrant, hct, hcode, hlook, hexp, hpkce, hneb]
  · intro d hlook hexp hok
    have hissue : tokenExchange cfg st now fresh req = issueTokens cfg st now fresh c d := by
      rcases hok with hskip | heq
      · simp [tokenExchange, hclient, hgrant, hct, hcode, hlook, hexp, hskip]
      · by_cases hpkce : (jsTruthy d.codeChallenge && jsTruthy req.code_verifier) = true
        · have hneb : (calculatedChallenge cfg d (req.code_verifier.getD "")
              != d.codeChallenge.getD "") = false := by simp [heq]
          simp [tokenExchange, hclient, hgrant, hct, hcode, hlook, hexp, hpkce, hneb]
        · rw [Bool.not_eq_true] at hpkce
          simp [tokenExchange, hclient, hgrant, hct, hcode, hlook, hexp, hpkce]
    rw [hissue]
    have hdel : (issueTokens cfg st now fresh c d).1.authorizationCodes.lookup c = none := by
      simp only [issueTokens]
      exact lookup_storeDelete st.authorizationCodes c
    refine ⟨hdel, ⟨_, _, rfl⟩, ?_⟩
    intro now2 fresh2
    have hclient2 : clientCheckFails (issueTokens cfg st now fresh c d).1 req = false := by
      have : clientCheckFails (issueTokens cfg st now fresh c d).1 req
          = clientCheckFails st req := rfl
      rw [this, hclient]
    simp [tokenExchange, hclient2, hgrant, hct, hcode, hdel]

/-- Witness for C2's amended theorem: the successful exchange of `c7` (no
verifier supplied with a registered challenge skips PKCE) deletes the code,
issues tokens, and the immediate second exchange is rejected. -/
theorem C2_code_deletion_witness :
    ((tokenExchange exOAuthCfg exOAuthStore 0 "r1"
        { grant_type := some "authorization_code", code := some "c7"
          code_verifier := some "chal" }).1).authorizationCodes.lookup "c7" = none
    ∧ (∃ tok sc, (tokenExchange exOAuthCfg exOAuthStore 0 "r1"
        { grant_type := some "authorization_code", code := some "c7"
          code_verifier := some "chal" }).2
        = .success tok 604800 (some "r1") sc)
    ∧ ∀ (now2 : Nat) (fresh2 : String),
        (tokenExchange exOAuthCfg
          (tokenExchange exOAuthCfg exOAuthStore 0 "r1"
            { grant_type := some "authorization_code", code := some "c7"
              code_verifier := some "chal" }).1 now2 fresh2
          { grant_type := some "authorization_code", code := some "c7"
            code_verifier := some "chal" }).2
          = .error 400 "invalid_grant" "Invalid or expired authorization code" :=
  (C2_code_deletion exOAuthCfg exOAuthStore 0 "r1"
      { grant_type := some "authorization_code", code := some "c7"
        code_verifier := some "chal" } "c7"
      rfl rfl (by decide) (by decide)).2.2.2
    exAuthData (by decide) (by decide) (Or.inr (by decide))

/-! ## Claim C3 -/

/-- C3: PKCE verification runs only when a challenge was registered AND the
request supplies a verifier: a valid, unexpired code whose record carries a
challenge, exchanged by a request without a `code_verifier`, skips
verification entirely and is answered with an access token and a refresh
token. -/
theorem C3_pkce_skipped_without_verifier (cfg : OAuthConfig) (st : OAuthStore)
    (now : Nat) (fresh : String) (req : TokenRequest) (c : String) (d : AuthCodeData)
    (hgrant : req.grant_type = some "authorization_code")
    (hcode : req.code = some c) (hc : c ≠ "")
    (hclient : clientCheckFails st req = false)
    (hlook : st.authorizationCodes.lookup c = some d)
    (hexp : ¬ d.expiresAt < now)
    (hchal : jsTruthy d.codeChallenge = true)
    (hver : jsTruthy req.code_verifier = false) :
    tokenExchange cfg st now fresh req = issueTokens cfg st now fresh c d
    ∧ (tokenExchange cfg st now fresh req).2
      = .success
          (cfg.signToken d.userId (some d.email)
            (resolveUserRoles cfg.adminUserIds cfg.auroraMemberIds d.userId))
          604800 (some fresh)
          (String.intercalate " "
            (resolveUserRoles cfg.adminUserIds cfg.auroraMemberIds d.userId)) := by
  have hct : jsTruthy (some c) = true := by
    simp [jsTruthy, hc]
  have hskip : (jsTruthy d.codeChallenge && jsTruthy req.code_verifier) = false := by
    rw [hchal, hver]
    rfl
  have h : tokenExchange cfg st now fresh req = issueTokens cfg st now fresh c d := by
    simp [tokenExchange, hclient, hgrant, hct, hcode, hlook, hexp, hskip]
  exact ⟨h, by rw [h]; rfl⟩

/-- Witness for C3: the code `c7` has challenge `chal` registered; a request
omitting `code_verifier` is still answered with tokens. -/
theorem C3_pkce_skipped_without_verifier_witness :
    tokenExchange exOAuthCfg exOAuthStore 0 "r1"
        { grant_type := some "authorization_code", code := some "c7" }
      = issueTokens exOAuthCfg exOAuthStore 0 "r1" "c7" exAuthData
    ∧ (tokenExchange exOAuthCfg exOAuthStore 0 "r1"
        { grant_type := some "authorization_code", code := some "c7" }).2
      = .success
          (exOAuthCfg.signToken exAuthData.userId (some exAuthData.email)
            (resolveUserRoles exOAuthCfg.adminUserIds exOAuthCfg.auroraMemberIds
              exAuthData.userId))
          604800 (some "r1")
          (String.intercalate " "
            (resolveUserRoles exOAuthCfg.adminUserIds exOAuthCfg.auroraMemberIds
              exAuthData.userId)) :=
  C3_pkce_skipped_without_verifier exOAuthCfg exOAuthStore 0 "r1"
    { grant_type := some "authorization_code", code := some "c7" } "c7" exAuthData
    rfl rfl (by decide) (by decide) (by decide) (by decide) (by decide) (by decide)

/-! ## Claim C4 -/

/-- Store for C4: a pending authorization stored under `pending_s` whose
absolute expiry (5 ms) is long past at the callback time used below. -/
def c4Store : OAuthStore :=
  { authorizationCodes :=
      [("pending_s",
        { clientId := "cid", userId := "", email := ""
          redirectUri := "https://client/cb", codeChallenge := none
          codeChallengeMethod := some "plain", expiresAt := 5
          state := some "xyz" })]
    registeredClients := []
    refreshTokens := [] }

/-- C4: evaluating the callback at the failing input. The pending record for
state `s` expired at 5 ms but at time 1000000 the callback still honors it —
it redirects and mints a fresh authorization code — because the handler only
tests presence, never `expiresAt`; the unknown-state half of the claim does
hold (a state with no record is rejected). -/
theorem C4_expired_pending_honored :
    (oauthCallback exOAuthCfg c4Store 1000000 (some "provcode") (some "s") "newcode").2
      = .redirect "https://client/cb" "newcode" (some "xyz")
    ∧ ((oauthCallback exOAuthCfg c4Store 1000000 (some "provcode") (some "s")
          "newcode").1).authorizationCodes.lookup "newcode"
      = some { clientId := "cid", userId := "u", email := "e"
               redirectUri := "https://client/cb", codeChallenge := none
               codeChallengeMethod := some "plain", expiresAt := 1000000 + 5 * 60 * 1000 }
    ∧ (oauthCallback exOAuthCfg c4Store 1000000 (some "provcode") (some "zz")
          "newcode").2
      = .badRequest "Invalid or expired state" := by
  decide

end Pearls
